import Mathlib

/-!
Shallow embedding of the directive interpreter and topology builder of
rhc/micro.py (the micro-service launcher): source loading with recursive
IMPORT expansion, the directive lexer, the config schema directives, the
finite-state-machine parser, and server/route assembly.

Python strings are modelled as Lean String values; the Python string
operations used by the source (split with a maxsplit of 1, whitespace
split, strip, lower) are reimplemented below over the character list.
Dynamic imports, the process environment, the working-directory override
file and the on-disk module locations are modelled as an explicit
environment record, since they are external inputs to the parser.
-/

namespace Micro

/-! ### Python string primitives used by micro.py -/

/-- Python l.split(sep, 1)[0] for a one-character separator: the text before
the first occurrence of the separator (the whole string when absent). -/
def cutAtChar (sep : Char) (s : String) : String :=
  ⟨s.toList.takeWhile (fun c => c ≠ sep)⟩

/-- Python str.strip(): drop leading and trailing whitespace. -/
def pyStrip (s : String) : String :=
  ⟨((s.toList.dropWhile Char.isWhitespace).reverse.dropWhile Char.isWhitespace).reverse⟩

/-- Python str.lower() (ASCII directive names). -/
def pyLower (s : String) : String :=
  ⟨s.toList.map Char.toLower⟩

/-- Python s.split(c, 1) when it yields two pieces: the text before the
first occurrence of c, and everything after it; none when c is absent
(in the source this is the case where tuple unpacking raises ValueError). -/
def splitOnceAux (sep : Char) : List Char → Option (List Char × List Char)
  | [] => Option.none
  | c :: cs =>
    if c = sep then some ([], cs)
    else
      match splitOnceAux sep cs with
      | Option.none => Option.none
      | some (a, b) => some (c :: a, b)

def splitOnce (sep : Char) (s : String) : Option (String × String) :=
  (splitOnceAux sep s.toList).map (fun p => (⟨p.1⟩, ⟨p.2⟩))

/-- Python str.split() with no argument: split on runs of whitespace,
dropping empty pieces. -/
def wsSplitAux : List Char → List Char → List (List Char)
  | [], acc => if acc = [] then [] else [acc.reverse]
  | c :: cs, acc =>
    if c.isWhitespace then
      if acc = [] then wsSplitAux cs [] else acc.reverse :: wsSplitAux cs []
    else wsSplitAux cs (c :: acc)

def pySplitWs (s : String) : List String :=
  (wsSplitAux s.toList []).map (fun cs => ⟨cs⟩)

/-- Python s.split(sep) for a one-character separator, keeping empty pieces. -/
def charSplitAux (sep : Char) : List Char → List Char → List (List Char)
  | [], acc => [acc.reverse]
  | c :: cs, acc =>
    if c = sep then acc.reverse :: charSplitAux sep cs []
    else charSplitAux sep cs (c :: acc)

def charSplit (sep : Char) (s : String) : List String :=
  (charSplitAux sep s.toList []).map (fun cs => ⟨cs⟩)

def digitsToNat (cs : List Char) : Nat :=
  cs.foldl (fun a c => 10 * a + (c.toNat - 48)) 0

/-- Python int() applied to a string: optional surrounding whitespace,
an optional sign, then a nonempty digit run; none models ValueError. -/
def pyIntOfString (s : String) : Option Int :=
  let t := (pyStrip s).toList
  let signDigits : Int × List Char :=
    match t with
    | '-' :: rest => (-1, rest)
    | '+' :: rest => (1, rest)
    | cs => (1, cs)
  if signDigits.2 ≠ [] ∧ signDigits.2.all Char.isDigit then
    some (signDigits.1 * (digitsToNat signDigits.2 : Int))
  else Option.none

/-- Insert into a Python-dict-like association list: overwrite in place
when the key is present, append otherwise. -/
def dictInsert (d : List (String × String)) (k v : String) : List (String × String) :=
  if d.any (fun p => p.1 = k) then
    d.map (fun p => if p.1 = k then (k, v) else p)
  else d ++ [(k, v)]

/-- Prefix test over the character lists (Python str.startswith for a
string argument), written structurally so terms reduce. -/
def strIsPreOf (p s : String) : Bool :=
  p.toList.isPrefixOf s.toList

/-- Python s.startswith(c) for one character. -/
def strStarts (s : String) (c : Char) : Bool :=
  match s.toList with
  | [] => false
  | c0 :: _ => c0 = c

/-- Python s.endswith(c) for one character. -/
def strEnds (s : String) (c : Char) : Bool :=
  match s.toList.getLast? with
  | some c0 => c0 = c
  | Option.none => false

/-! ### Config values, validators and the schema (rhc.config) -/

/-- A Python value as it occurs in the config namespace. -/
inductive Val where
  | int (i : Int)
  | bool (b : Bool)
  | str (s : String)
  | none
  deriving DecidableEq, Repr

/-- Python truthiness of a config value. -/
def Val.truthy : Val → Bool
  | .int i => i ≠ 0
  | .bool b => b
  | .str s => s ≠ ""
  | .none => false

inductive VTag where
  | vint
  | vbool
  | vfile
  deriving DecidableEq, Repr

/-- Modelled from the spec: rhc.config validate_int / validate_bool /
validate_file are not under src/. Per the spec: int accepts an integer or
a digit string (coerced); bool accepts a boolean or a case-insensitive
true/false string; file accepts a path string naming an existing file. -/
def validateVal (fileExists : String → Bool) : VTag → Val → Except String Val
  | .vint, .int i => .ok (.int i)
  | .vint, v =>
    match v with
    | .str s =>
      if s.toList ≠ [] ∧ s.toList.all Char.isDigit then .ok (.int (digitsToNat s.toList))
      else .error ("validation error: not an int: " ++ s)
    | _ => .error "validation error: not an int"
  | .vbool, .bool b => .ok (.bool b)
  | .vbool, v =>
    match v with
    | .str s =>
      if pyLower s = "true" then .ok (.bool true)
      else if pyLower s = "false" then .ok (.bool false)
      else .error ("validation error: not a bool: " ++ s)
    | _ => .error "validation error: not a bool"
  | .vfile, v =>
    match v with
    | .str s =>
      if fileExists s then .ok (.str s)
      else .error ("validation error: not a file: " ++ s)
    | _ => .error "validation error: not a file"

/-- Modelled from the spec: a ConfigKey as registered by
rhc.config.Config._define (not under src/): dotted name, default value,
optional validator, optional bound environment-variable name. -/
structure CfgKey where
  name : String
  value : Val
  validator : Option VTag
  envVar : Option String
  deriving DecidableEq, Repr

abbrev Cfg := List CfgKey

/-- Modelled from the spec: Config._define registers a key; a key defined
again replaces the earlier registration. -/
def cfgDefine (cfg : Cfg) (k : CfgKey) : Cfg :=
  if cfg.any (fun x => x.name = k.name) then
    cfg.map (fun x => if x.name = k.name then k else x)
  else cfg ++ [k]

def cfgFind (cfg : Cfg) (name : String) : Option CfgKey :=
  cfg.find? (fun k => k.name = name)

/-! ### The CONFIG and CONFIG_SERVER directives (micro.py _config, _config_server) -/

/-- kwargs dict of a CONFIG value line: each whitespace token split at the
first equals sign; a token without one models the unpacking ValueError. -/
def kwDict : List String → List (String × String) → Except String (List (String × String))
  | [], acc => .ok acc
  | t :: rest, acc =>
    match splitOnce '=' t with
    | Option.none => .error "ValueError: need more than 1 value to unpack"
    | some (n, v) => kwDict rest (dictInsert acc n v)

/-- micro.py _config: interpret a CONFIG value line and register one key,
returning the updated schema and the key name. -/
def configDirective (fileExists : String → Bool) (cfg : Cfg) (line : String) :
    Except String (Cfg × String) :=
  match splitOnce ' ' line with
  | Option.none =>
    .ok (cfgDefine cfg ⟨line, Val.none, Option.none, Option.none⟩, line)
  | some (name, rest) =>
    match kwDict (pySplitWs rest) [] with
    | .error e => .error e
    | .ok kw =>
      let vsel : Except String (Option VTag) :=
        match kw.lookup "validate" with
        | some "int" => .ok (some VTag.vint)
        | some "bool" => .ok (some VTag.vbool)
        | some "file" => .ok (some VTag.vfile)
        | some _ => .error "%s is not a recognized validation type"
        | Option.none => .ok Option.none
      match vsel with
      | .error e => .error e
      | .ok vt =>
        let envOpt := kw.lookup "env"
        let valueE : Except String Val :=
          match kw.lookup "default" with
          | Option.none => .ok Val.none
          | some dv =>
            match vt with
            | Option.none => .ok (Val.str dv)
            | some t => validateVal fileExists t (Val.str dv)
        match valueE with
        | .error e => .error e
        | .ok v =>
          if kw.any (fun p => ¬ (p.1 = "validate" ∨ p.1 = "default" ∨ p.1 = "env")) then
            .error "TypeError: unexpected keyword argument"
          else
            .ok (cfgDefine cfg ⟨name, v, vt, envOpt⟩, name)

/-- micro.py _config_server: expand CONFIG_SERVER name port into the five
key registrations and return the five dotted names. -/
def configServer (cfg : Cfg) (line : String) : Except String (Cfg × List String) :=
  match pySplitWs line with
  | [name, port] =>
    match pyIntOfString port with
    | Option.none => .error ("ValueError: invalid literal for int(): " ++ port)
    | some p =>
      let c1 := cfgDefine cfg ⟨name ++ ".port", Val.int p, some VTag.vint, Option.none⟩
      let c2 := cfgDefine c1 ⟨name ++ ".is_active", Val.bool true, some VTag.vbool, Option.none⟩
      let c3 := cfgDefine c2 ⟨name ++ ".ssl.is_active", Val.bool false, some VTag.vbool, Option.none⟩
      let c4 := cfgDefine c3 ⟨name ++ ".ssl.keyfile", Val.none, some VTag.vfile, Option.none⟩
      let c5 := cfgDefine c4 ⟨name ++ ".ssl.certfile", Val.none, some VTag.vfile, Option.none⟩
      .ok (c5, [name ++ ".port", name ++ ".is_active", name ++ ".ssl.is_active",
                name ++ ".ssl.keyfile", name ++ ".ssl.certfile"])
  | _ => .error "ValueError: unpack"

/-! ### The external world of the parser -/

/-- The external inputs of micro.py parsing: the MICRO_SETUP variable, the
rest of the process environment, dynamic dotted-path import (a
successful import is represented by an opaque string id), existence of the
working-directory override file named config, existence of files on disk
(for the file validator), and the on-disk directory of a python module
(imp.find_module, used for dotted IMPORT targets). -/
structure Env where
  microSetup : Option String
  osEnv : String → Option String
  resolve : String → Option String
  overrideExists : Bool
  fileExists : String → Bool
  moduleDir : String → Option String

/-- Resolution of a config attribute read, modelled from the spec:
an environment value bound via env= wins over the stored value (override
file then default); the environment string is run through the key's
validator when one is present. rhc.config is not under src/. -/
def cfgResolve (env : Env) (k : CfgKey) : Val :=
  match k.envVar with
  | some e =>
    match env.osEnv e with
    | some s =>
      match k.validator with
      | some vt =>
        match validateVal env.fileExists vt (Val.str s) with
        | .ok v => v
        | .error _ => Val.str s
      | Option.none => Val.str s
    | Option.none => k.value
  | Option.none => k.value

def cfgAttrVal (env : Env) (cfg : Cfg) (name : String) : Option Val :=
  (cfgFind cfg name).map (cfgResolve env)

/-- hasattr on a config subsection: the attribute exists as a leaf key or
as a deeper subtree. -/
def sectionHasAttr (cfg : Cfg) (nm a : String) : Bool :=
  cfg.any (fun k => k.name = nm ++ "." ++ a ∨ strIsPreOf (nm ++ "." ++ a ++ ".") k.name)

/-- getattr(config, nm) succeeds: the section exists as a leaf or subtree. -/
def sectionExists (cfg : Cfg) (nm : String) : Bool :=
  cfg.any (fun k => k.name = nm ∨ strIsPreOf (nm ++ ".") k.name)

/-! ### Topology builder: Route and Server (micro.py) -/

/-- micro.py Route: a url pattern with a method table mapping an HTTP
method name to the resolved handler (its opaque import id). -/
structure RouteT where
  pattern : String
  method : List (String × String)
  deriving DecidableEq, Repr

/-- micro.py Route.add: method[m] becomes the dynamically imported handler. -/
def routeAdd (resolve : String → Option String) (r : RouteT) (method path : String) :
    Except String RouteT :=
  match resolve path with
  | Option.none => .error ("ImportError: " ++ path)
  | some f => .ok { r with method := dictInsert r.method method f }

/-- micro.py MicroContext: the four HTTP limits passed to the handler. -/
structure MicroContext where
  http_max_content_length : Val
  http_max_line_length : Val
  http_max_header_count : Val
  hide_stack_trace : Val
  deriving DecidableEq, Repr

/-- micro.py Server: name, context, RESTMapper contents (pattern plus
method table, in add order), is_active as read from config, port, handler
(opaque import id, or the default MicroRESTHandler), optional ssl
keyfile/certfile pair, and the currently open route. -/
structure Srv where
  name : String
  context : MicroContext
  mapper : List (String × List (String × String))
  is_active : Val
  port : Int
  handler : String
  ssl : Option (Val × Val)
  route : Option RouteT
  deriving DecidableEq, Repr

def defaultHandler : String := "rhc.micro.MicroRESTHandler"

/-- Python int() applied to a config value. -/
def valToInt : Val → Except String Int
  | .int i => .ok i
  | .bool b => .ok (if b then 1 else 0)
  | .str s =>
    match pyIntOfString s with
    | some i => .ok i
    | Option.none => .error ("ValueError: invalid literal for int(): " ++ s)
  | .none => .error "TypeError: int() argument is None"

/-- micro.py Server.__init__ for a SERVER directive: read the named config
section: port (required, coerced by int()), is_active (default True),
handler (dynamically imported module, default MicroRESTHandler), the
MicroContext limits, and ssl parameters when ssl.is_active is truthy. -/
def mkServerFromSection (env : Env) (cfg : Cfg) (nm : String) : Except String Srv :=
  if ¬ sectionExists cfg nm then
    .error ("AttributeError: " ++ nm)
  else
    let attr := fun a => cfgAttrVal env cfg (nm ++ "." ++ a)
    let has := fun a => sectionHasAttr cfg nm a
    let ctx : MicroContext :=
      ⟨if has "http_max_content_length" then (attr "http_max_content_length").getD Val.none
        else Val.none,
       if has "http_max_line_length" then (attr "http_max_line_length").getD Val.none
        else Val.int 10000,
       if has "http_max_header_count" then (attr "http_max_header_count").getD Val.none
        else Val.int 100,
       if has "hide_stack_trace" then (attr "hide_stack_trace").getD Val.none
        else Val.bool true⟩
    let isActive := if has "is_active" then (attr "is_active").getD Val.none else Val.bool true
    match attr "port" with
    | Option.none => .error "AttributeError: port"
    | some pv =>
      match valToInt pv with
      | .error e => .error e
      | .ok p =>
        let handlerE : Except String String :=
          if has "handler" then
            match attr "handler" with
            | some (Val.str h) =>
              match env.resolve h with
              | some m => .ok m
              | Option.none => .error ("ImportError: " ++ h)
            | _ => .error "TypeError: handler path"
          else .ok defaultHandler
        match handlerE with
        | .error e => .error e
        | .ok hd =>
          let sslE : Except String (Option (Val × Val)) :=
            if has "ssl" then
              match attr "ssl.is_active" with
              | Option.none => .error "AttributeError: is_active"
              | some ia =>
                if ia.truthy then
                  match attr "ssl.keyfile", attr "ssl.certfile" with
                  | some kf, some cf => .ok (some (kf, cf))
                  | _, _ => .error "AttributeError: ssl keyfile or certfile"
                else .ok Option.none
            else .ok Option.none
          match sslE with
          | .error e => .error e
          | .ok ssl => .ok ⟨nm, ctx, [], isActive, p, hd, ssl, Option.none⟩

/-- micro.py Server.__init__ for a bare PORT directive: the synthetic
one-field config namedtuple leaves every hasattr check false. -/
def mkServerDefault (p : Int) : Srv :=
  ⟨"default", ⟨Val.none, Val.int 10000, Val.int 100, Val.bool true⟩,
   [], Val.bool true, p, defaultHandler, Option.none, Option.none⟩

/-- micro.py Server.add_route: close any open route onto the mapper, then
open a new route for the pattern. -/
def srvAddRoute (s : Srv) (pattern : String) : Srv :=
  match s.route with
  | some r => { s with mapper := s.mapper ++ [(r.pattern, r.method)],
                       route := some ⟨pattern, []⟩ }
  | Option.none => { s with route := some ⟨pattern, []⟩ }

/-- micro.py Server.add_method: attach a resolved handler to the open route. -/
def srvAddMethod (resolve : String → Option String) (s : Srv) (method path : String) :
    Except String Srv :=
  match s.route with
  | Option.none => .error "AttributeError: route"
  | some r =>
    match routeAdd resolve r method path with
    | .error e => .error e
    | .ok r1 => .ok { s with route := some r1 }

/-- A server registration handed to the external listener registry
(SERVER.add_server in micro.py Server.done). -/
structure Registration where
  port : Int
  handler : String
  mapper : List (String × List (String × String))
  ssl : Option (Val × Val)
  deriving DecidableEq, Repr

/-- micro.py Server.done: when active, close any open route onto the
mapper and register with the external listener registry; inactive servers
do nothing. The registry itself is an external collaborator and is
modelled as always accepting. -/
def srvDone (s : Srv) : Srv × Option Registration :=
  if s.is_active.truthy then
    let s1 :=
      match s.route with
      | some r => { s with mapper := s.mapper ++ [(r.pattern, r.method)] }
      | Option.none => s
    (s1, some ⟨s1.port, s1.handler, s1.mapper, s1.ssl⟩)
  else (s, Option.none)

/-! ### The finite-state machine (micro.py FSM) -/

inductive Tag where
  | init
  | config
  | server
  | route
  | done
  deriving DecidableEq, Repr

/-- micro.py FSM instance state: current state, teardown reference (none
models the initial no-op lambda), the config namespace, the recorded key
names, the port-to-server-name dict, the current server, plus the
observable effect traces: setup invocations (resolved function id with
the config namespace passed to it), listener registrations, and the
number of times the override file config was loaded. -/
structure Fsm where
  tag : Tag
  teardown : Option String
  cfg : Cfg
  config_keys : List String
  ports : List (Int × String)
  server : Option Srv
  setupCalls : List (String × Cfg)
  registrations : List Registration
  overrideLoads : Nat
  deriving DecidableEq, Repr

/-- micro.py FSM.__init__. -/
def fsmInit : Fsm :=
  ⟨Tag.init, Option.none, [], [], [], Option.none, [], [], 0⟩

/-- The config/config_server arm shared by state_init (after switching
state) and state_config. A missing value models the AttributeError a None
data would raise. -/
def stateConfigAction (env : Env) (f : Fsm) (event : String) (data : Option String) :
    Except String Fsm :=
  match data with
  | Option.none => .error "TypeError: directive value is None"
  | some d =>
    if event = "config" then
      match configDirective env.fileExists f.cfg d with
      | .error e => .error e
      | .ok (c, name) => .ok { f with cfg := c, config_keys := f.config_keys ++ [name] }
    else
      match configServer f.cfg d with
      | .error e => .error e
      | .ok (c, names) => .ok { f with cfg := c, config_keys := f.config_keys ++ names }

/-- micro.py FSM.state_init on the non-config events (setup, teardown,
server, port, done; anything else is an invalid record). state_config
falls through to exactly these arms after applying the override file. -/
def stateInitNonConfig (env : Env) (f : Fsm) (event : String) (data : Option String) :
    Except String Fsm :=
  if event = "setup" then
    let pathE : Except String String :=
      match env.microSetup with
      | some p => .ok p
      | Option.none =>
        match data with
        | some d => .ok d
        | Option.none => .error "TypeError: directive value is None"
    match pathE with
    | .error e => .error e
    | .ok path =>
      match env.resolve path with
      | some fn => .ok { f with setupCalls := f.setupCalls ++ [(fn, f.cfg)] }
      | Option.none => .error ("ImportError: " ++ path)
  else if event = "teardown" then
    match data with
    | Option.none => .error "TypeError: directive value is None"
    | some d =>
      match env.resolve d with
      | some fn => .ok { f with teardown := some fn }
      | Option.none => .error ("ImportError: " ++ d)
  else if event = "server" then
    match data with
    | Option.none => .error "TypeError: directive value is None"
    | some d =>
      match mkServerFromSection env f.cfg d with
      | .error e => .error e
      | .ok s =>
        match f.ports.lookup s.port with
        | some owner =>
          .error ("port " ++ toString s.port ++ " already defined for server \x22" ++
                  owner ++ "\x22")
        | Option.none =>
          .ok { f with server := some s, ports := f.ports ++ [(s.port, s.name)],
                       tag := Tag.server }
  else if event = "port" then
    match data with
    | Option.none => .error "TypeError: directive value is None"
    | some d =>
      match pyIntOfString d with
      | some p => .ok { f with server := some (mkServerDefault p), tag := Tag.server }
      | Option.none => .error ("ValueError: invalid literal for int(): " ++ d)
  else if event = "done" then
    .ok { f with tag := Tag.done }
  else
    .error ("invalid record " ++ event)

/-- micro.py FSM.state_init: a config or config_server event switches to
state_config before processing it; everything else is the non-config arm. -/
def stateInit (env : Env) (f : Fsm) (event : String) (data : Option String) :
    Except String Fsm :=
  if event = "config" ∨ event = "config_server" then
    stateConfigAction env { f with tag := Tag.config } event data
  else
    stateInitNonConfig env f event data

/-- micro.py FSM.state_config: config events feed the schema builder; any
other event first loads the override file config when it exists, then
switches back to state_init and re-dispatches the event there. -/
def stateConfig (env : Env) (f : Fsm) (event : String) (data : Option String) :
    Except String Fsm :=
  if event = "config" ∨ event = "config_server" then
    stateConfigAction env f event data
  else
    let f1 := if env.overrideExists then { f with overrideLoads := f.overrideLoads + 1 } else f
    stateInitNonConfig env { f1 with tag := Tag.init } event data

/-- micro.py FSM.state_server: only route and done are legal. -/
def stateServer (_env : Env) (f : Fsm) (event : String) (data : Option String) :
    Except String Fsm :=
  if event = "route" then
    match data with
    | Option.none => .error "TypeError: directive value is None"
    | some d =>
      match f.server with
      | some s => .ok { f with server := some (srvAddRoute s d), tag := Tag.route }
      | Option.none => .error "AttributeError: server"
  else if event = "done" then
    match f.server with
    | some s =>
      let sr := srvDone s
      .ok { f with server := some sr.1, registrations := f.registrations ++ sr.2.toList,
                   tag := Tag.done }
    | Option.none => .error "AttributeError: server"
  else
    .error ("invalid record " ++ event)

/-- micro.py FSM.state_route: methods attach to the open route; route
opens a sibling route; server and port finalize the current server and
open a new one (only the server arm checks the ports dict); done
finalizes and ends. -/
def stateRoute (env : Env) (f : Fsm) (event : String) (data : Option String) :
    Except String Fsm :=
  if event = "get" ∨ event = "post" ∨ event = "put" ∨ event = "delete" then
    match data with
    | Option.none => .error "TypeError: directive value is None"
    | some d =>
      match f.server with
      | some s =>
        match srvAddMethod env.resolve s event d with
        | .error e => .error e
        | .ok s1 => .ok { f with server := some s1 }
      | Option.none => .error "AttributeError: server"
  else if event = "route" then
    match data with
    | Option.none => .error "TypeError: directive value is None"
    | some d =>
      match f.server with
      | some s => .ok { f with server := some (srvAddRoute s d) }
      | Option.none => .error "AttributeError: server"
  else if event = "server" then
    match data with
    | Option.none => .error "TypeError: directive value is None"
    | some d =>
      match f.server with
      | some s =>
        let sr := srvDone s
        let f1 := { f with server := some sr.1,
                           registrations := f.registrations ++ sr.2.toList }
        match mkServerFromSection env f1.cfg d with
        | .error e => .error e
        | .ok s2 =>
          match f1.ports.lookup s2.port with
          | some owner =>
            .error ("port " ++ toString s2.port ++ " already defined for server \x22" ++
                    owner ++ "\x22")
          | Option.none =>
            .ok { f1 with server := some s2, ports := f1.ports ++ [(s2.port, s2.name)],
                          tag := Tag.server }
      | Option.none => .error "AttributeError: server"
  else if event = "port" then
    match data with
    | Option.none => .error "TypeError: directive value is None"
    | some d =>
      match f.server with
      | some s =>
        let sr := srvDone s
        let f1 := { f with server := some sr.1,
                           registrations := f.registrations ++ sr.2.toList }
        match pyIntOfString d with
        | some p => .ok { f1 with server := some (mkServerDefault p), tag := Tag.server }
        | Option.none => .error ("ValueError: invalid literal for int(): " ++ d)
      | Option.none => .error "AttributeError: server"
  else if event = "done" then
    match f.server with
    | some s =>
      let sr := srvDone s
      .ok { f with server := some sr.1, registrations := f.registrations ++ sr.2.toList,
                   tag := Tag.done }
    | Option.none => .error "AttributeError: server"
  else
    .error ("invalid record " ++ event)

/-- Dispatch on the current state (the self.state method reference). -/
def handleEvent (env : Env) (f : Fsm) (event : String) (data : Option String) :
    Except String Fsm :=
  match f.tag with
  | Tag.init => stateInit env f event data
  | Tag.config => stateConfig env f event data
  | Tag.server => stateServer env f event data
  | Tag.route => stateRoute env f event data
  | Tag.done => .error ("unexpected event " ++ event)

/-- micro.py FSM.handle: any error is re-raised with line and file
context appended. -/
def handleAt (env : Env) (f : Fsm) (event : String) (data : Option String)
    (fname : String) (linenum : Nat) : Except String Fsm :=
  match handleEvent env f event data with
  | .ok f1 => .ok f1
  | .error e => .error (e ++ ", line=" ++ toString linenum ++ " of " ++ fname)

/-- Run a list of raw FSM events (no line wrapping), as the claims about
route accumulation need. -/
def runEvents (env : Env) (f : Fsm) : List (String × Option String) → Except String Fsm
  | [] => .ok f
  | (ev, d) :: rest =>
    match handleEvent env f ev d with
    | .error e => .error e
    | .ok f1 => runEvents env f1 rest

/-! ### Source loader (micro.py _load) -/

/-- The readable files: resolved path to its physical lines (line
terminators are immaterial to every downstream operation and are left
off). -/
abbrev FileSys := List (String × List String)

def fsOpen (fs : FileSys) (fname : String) : Option (List String) :=
  (fs.find? (fun e => e.1 = fname)).map (fun e => e.2)

/-- _load line test: the whitespace-split line has more than one token and
the first lower-cases to import. -/
def isImportLine (l : String) : Bool :=
  match pySplitWs l with
  | t :: rest => rest ≠ [] ∧ pyLower t = "import"
  | [] => false

/-- _load import target: the remaining tokens joined by single spaces. -/
def importTarget (l : String) : String :=
  match pySplitWs l with
  | _ :: rest => String.intercalate " " rest
  | [] => ""

/-- Python os.path.dirname for the separator-based cases _load uses. -/
def pyDirname (s : String) : String :=
  let cs := s.toList
  match (cs.reverse.dropWhile (fun c => c ≠ '/')) with
  | [] => ""
  | '/' :: [] => "/"
  | _ :: rest => ⟨rest.reverse⟩

/-- Python os.path.join for two components. -/
def pyJoin (d f : String) : String :=
  if strStarts f '/' then f
  else if d = "" then f
  else if strEnds d '/' then d ++ f
  else d ++ "/" ++ f

/-- _load target resolution: a dotted, separator-free target is resolved
through the first segment's module directory; a target not starting with
the separator is relative to the importing file's directory; otherwise it
is taken literally. -/
def resolveTarget (moduleDir : String → Option String) (dirPath target : String) :
    Except String String :=
  if target.toList.contains '.' ∧ ¬ target.toList.contains '/' then
    match charSplit '.' target with
    | [] => .error "ImportError: empty import"
    | p0 :: rest =>
      match moduleDir p0 with
      | some path => .ok (rest.foldl pyJoin path)
      | Option.none => .error ("ImportError: No module named " ++ p0)
  else if ¬ strStarts target '/' then .ok (pyJoin dirPath target)
  else .ok target

def cyclicMsg (fname : String) : String :=
  "a micro file (in this case, " ++ fname ++ ") cannot be recursively imported"

/-- The per-line fold of _load over one file's contents; the handling of
a nested import is passed in as recImport (the recursive _load call at
the importing level). Structural in the line list. -/
def loadLinesH
    (recImport : String → List String → List (String × Nat × String) →
      Except String (List String × List (String × Nat × String)))
    (env : Env) (dirPath fname : String) :
    Nat → List String → List String → List (String × Nat × String) →
    Except String (List String × List (String × Nat × String))
  | _, [], files, lines => .ok (files, lines)
  | n, l :: rest, files, lines =>
    if isImportLine l then
      match resolveTarget env.moduleDir dirPath (importTarget l) with
      | .error e => .error e
      | .ok resolved =>
        match recImport resolved files lines with
        | .error e => .error e
        | .ok (files1, lines1) =>
          loadLinesH recImport env dirPath fname (n + 1) rest files1 lines1
    else
      loadLinesH recImport env dirPath fname (n + 1) rest files (lines ++ [(fname, n, l)])

/-- micro.py _load, with the mutated files and lines accumulators threaded
explicitly. files records every file ever expanded (the code never removes
entries), so any re-encounter of an already-expanded file raises the
recursive-import error. Recursion depth is bounded by the number of
distinct readable files because files grows at every nesting level; the
fuel argument makes that bound explicit and parsing supplies one more
than the file-system size, so exhaustion is unreachable there. -/
def loadAux (env : Env) (fs : FileSys) :
    Nat → String → List String → List (String × Nat × String) →
    Except String (List String × List (String × Nat × String))
  | 0, fname, files, _ =>
    if files.contains fname then .error (cyclicMsg fname)
    else .error "fuel exhausted"
  | fuel' + 1, fname, files, lines =>
    if files.contains fname then
      .error (cyclicMsg fname)
    else
      match fsOpen fs fname with
      | Option.none => .error ("IOError: No such file " ++ fname)
      | some ls =>
        loadLinesH (fun r fl ln => loadAux env fs fuel' r fl ln) env
          (pyDirname fname) fname 1 ls (files ++ [fname]) lines
/-- The _load call made by parse. -/
def load (env : Env) (fs : FileSys) (src : String) :
    Except String (List String × List (String × Nat × String)) :=
  loadAux env fs (fs.length + 1) src [] []

/-! ### parse (micro.py) -/

/-- The lexed name of a raw line: strip the comment and surrounding
whitespace, split at the first space, lower-case the head. none when the
line is gone (blank or comment-only) or has no space (the unpacking
ValueError). -/
def lexedName (l : String) : Option String :=
  let stripped := pyStrip (cutAtChar '#' l)
  (splitOnce ' ' stripped).map (fun p => pyLower p.1)

/-- The per-line loop of parse: comment strip, blank skip, split into
lowercased name and value, the config_only filter, then FSM dispatch with
error wrapping. The second component tracks the loop variables fname and
lnum, which survive the loop for the final synthesized done event. -/
def parseLoop (env : Env) (configOnly : Bool) :
    Fsm → List (String × Nat × String) → Option (String × Nat) →
    Except String (Fsm × Option (String × Nat))
  | f, [], last => .ok (f, last)
  | f, (fname, lnum, l) :: rest, _ =>
    let stripped := pyStrip (cutAtChar '#' l)
    if stripped = "" then
      parseLoop env configOnly f rest (some (fname, lnum))
    else
      match splitOnce ' ' stripped with
      | Option.none => .error "ValueError: need more than 1 value to unpack"
      | some (n0, v) =>
        let n := pyLower n0
        if configOnly ∧ ¬ (n = "config" ∨ n = "config_server") then
          parseLoop env configOnly f rest (some (fname, lnum))
        else
          match handleAt env f n (some v) fname lnum with
          | .error e => .error e
          | .ok f1 => parseLoop env configOnly f1 rest (some (fname, lnum))

/-- micro.py parse up to and including the synthesized final done event,
returning the finished FSM. When the loaded stream is empty the loop
variables were never bound and the final handle call raises NameError. -/
def parseFsm (env : Env) (fs : FileSys) (src : String) (configOnly : Bool) :
    Except String Fsm :=
  match load env fs src with
  | .error e => .error e
  | .ok (_, lines) =>
    match parseLoop env configOnly fsmInit lines Option.none with
    | .error e => .error e
    | .ok (_, Option.none) => .error "NameError: name fname is not defined"
    | .ok (f, some (fname, lnum)) => handleAt env f "done" Option.none fname (lnum + 1)

/-- The control record parse returns when not config_only: loop.sleep and
loop.max_iterations when a loop config section exists, else 100/100, plus
the teardown reference. -/
structure Control where
  sleep : Val
  max_iterations : Val
  teardown : Option String
  deriving DecidableEq, Repr

/-- micro.py parse, full result. An existing loop section with either key
missing raises AttributeError, as the attribute reads would. -/
def parseMicro (env : Env) (fs : FileSys) (src : String) : Except String Control :=
  match parseFsm env fs src false with
  | .error e => .error e
  | .ok f =>
    if sectionExists f.cfg "loop" then
      match cfgAttrVal env f.cfg "loop.sleep", cfgAttrVal env f.cfg "loop.max_iterations" with
      | some s, some m => .ok ⟨s, m, f.teardown⟩
      | _, _ => .error "AttributeError: loop"
    else .ok ⟨Val.int 100, Val.int 100, f.teardown⟩

/-! ### Concrete environments and directive files used by the claims -/

/-- No MICRO_SETUP, empty process environment, every dotted path imports
successfully (to its own name as opaque id), no override file, no files
on disk, no locatable modules. -/
def envPlain : Env :=
  ⟨Option.none, fun _ => Option.none, fun p => some p, false, fun _ => false,
   fun _ => Option.none⟩

/-- envPlain, but the override file config exists in the working
directory. -/
def envOverride : Env :=
  ⟨Option.none, fun _ => Option.none, fun p => some p, true, fun _ => false,
   fun _ => Option.none⟩

/-- A micro file whose CONFIG directive arrives after a SETUP directive. -/
def fsLateConfig : FileSys := [("/m", ["setup a.b", "config x"])]

/-- A imports B twice from unrelated (acyclic) branches. -/
def fsDoubleImport : FileSys := [("/a", ["import /b", "import /b"]), ("/b", ["port 1"])]

/-- A two-file import cycle. -/
def fsCycle : FileSys := [("/a", ["import /b"]), ("/b", ["import /a"])]

/-- Two bare PORT directives claiming the same port. -/
def fsDupPorts : FileSys :=
  [("/m", ["port 7", "route /x", "port 7", "route /y", "get h.p"])]

/-- Two separated CONFIG blocks, each followed by a non-config directive. -/
def fsTwoBlocks : FileSys :=
  [("/m", ["config a", "setup s.f", "config b", "setup s.f"])]

/-- A directive line holding a single token and no value. -/
def fsBareWord : FileSys := [("/m", ["teardown"])]

/-- A one-directive stream with no CONFIG or CONFIG_SERVER at all. -/
def fsTeardownOnly : FileSys := [("/m", ["teardown t.f"])]

/-! ### Invariance of the override-load counter and the state tag -/

lemma stateConfigAction_spec {env : Env} {f : Fsm} {ev : String} {d : Option String}
    {f2 : Fsm} (h : stateConfigAction env f ev d = Except.ok f2) :
    f2.overrideLoads = f.overrideLoads ∧ f2.tag = f.tag := by
  unfold stateConfigAction at h
  repeat' first
    | (split at h)
    | (simp only [] at h)
  all_goals first
    | (exact Except.noConfusion h)
    | (obtain rfl := Except.ok.inj h; simp)

lemma stateInitNonConfig_spec {env : Env} {f : Fsm} {ev : String} {d : Option String}
    {f2 : Fsm} (h : stateInitNonConfig env f ev d = Except.ok f2) :
    f2.overrideLoads = f.overrideLoads ∧
      (f2.tag = f.tag ∨ f2.tag = Tag.server ∨ f2.tag = Tag.done) := by
  unfold stateInitNonConfig at h
  repeat' first
    | (split at h)
    | (simp only [] at h)
  all_goals first
    | (exact Except.noConfusion h)
    | (obtain rfl := Except.ok.inj h; simp)

lemma stateServer_spec {env : Env} {f : Fsm} {ev : String} {d : Option String}
    {f2 : Fsm} (h : stateServer env f ev d = Except.ok f2) :
    f2.overrideLoads = f.overrideLoads ∧
      (f2.tag = Tag.route ∨ f2.tag = Tag.done) := by
  unfold stateServer at h
  repeat' first
    | (split at h)
    | (simp only [] at h)
  all_goals first
    | (exact Except.noConfusion h)
    | (obtain rfl := Except.ok.inj h; simp)

lemma stateRoute_spec {env : Env} {f : Fsm} {ev : String} {d : Option String}
    {f2 : Fsm} (h : stateRoute env f ev d = Except.ok f2) :
    f2.overrideLoads = f.overrideLoads ∧
      (f2.tag = f.tag ∨ f2.tag = Tag.server ∨ f2.tag = Tag.done) := by
  unfold stateRoute at h
  repeat' first
    | (split at h)
    | (simp only [] at h)
  all_goals first
    | (exact Except.noConfusion h)
    | (obtain rfl := Except.ok.inj h; simp)

/-! ### Generic helpers -/

lemma str_append_ne (n : String) {s t : String} (h : s ≠ t) : n ++ s ≠ n ++ t := by
  intro hc
  apply h
  have h2 := congrArg String.data hc
  simp only [String.data_append] at h2
  exact String.ext (List.append_cancel_left h2)

lemma cfgDefine_append {cfg : Cfg} {k : CfgKey} (h : ∀ x ∈ cfg, x.name ≠ k.name) :
    cfgDefine cfg k = cfg ++ [k] := by
  unfold cfgDefine
  rw [if_neg]
  simp only [List.any_eq_true, not_exists, not_and]
  intro x hx
  simpa using h x hx

lemma handleAt_ok {env : Env} {f : Fsm} {ev : String} {d : Option String}
    {fname : String} {num : Nat} {f2 : Fsm} :
    handleAt env f ev d fname num = Except.ok f2 ↔ handleEvent env f ev d = Except.ok f2 := by
  unfold handleAt
  cases handleEvent env f ev d <;> simp

lemma handleEvent_init {env : Env} {f : Fsm} {ev : String} {d : Option String}
    (htag : f.tag = Tag.init) : handleEvent env f ev d = stateInit env f ev d := by
  unfold handleEvent
  rw [htag]

lemma handleEvent_config {env : Env} {f : Fsm} {ev : String} {d : Option String}
    (htag : f.tag = Tag.config) : handleEvent env f ev d = stateConfig env f ev d := by
  unfold handleEvent
  rw [htag]

lemma handleEvent_server {env : Env} {f : Fsm} {ev : String} {d : Option String}
    (htag : f.tag = Tag.server) : handleEvent env f ev d = stateServer env f ev d := by
  unfold handleEvent
  rw [htag]

lemma handleEvent_route {env : Env} {f : Fsm} {ev : String} {d : Option String}
    (htag : f.tag = Tag.route) : handleEvent env f ev d = stateRoute env f ev d := by
  unfold handleEvent
  rw [htag]

lemma handleEvent_done {env : Env} {f : Fsm} {ev : String} {d : Option String}
    (htag : f.tag = Tag.done) :
    handleEvent env f ev d = Except.error ("unexpected event " ++ ev) := by
  unfold handleEvent
  rw [htag]

/-! ### Claim C1 -/

/-- Claim C1, counterexample: in the stream SETUP a.b followed by
CONFIG x, the CONFIG directive arrives after a non-config directive, yet
parse succeeds (the FSM is still in its initial state after SETUP, and
state_init routes a config event into the Config state); the run ends in
the done state with the key x registered. The claim that every such
stream fails with an invalid-event error is therefore false. -/
theorem c1_counterexample :
    parseFsm envPlain fsLateConfig "/m" false =
      Except.ok ⟨Tag.done, Option.none,
        [⟨"x", Val.none, Option.none, Option.none⟩], ["x"], [], Option.none,
        [("a.b", [])], [], 0⟩ := by
  rfl

/-- Claim C1, amended: a CONFIG or CONFIG_SERVER directive is rejected as
an invalid event exactly when the FSM has left the Init/Config states,
i.e. in the ServerOpen, RouteOpen and Done states (after a SERVER, PORT,
ROUTE, method, or DONE directive); after SETUP or TEARDOWN the machine is
still in Init and a late config directive is accepted. -/
theorem c1_amended (env : Env) (f : Fsm) (ev : String) (d : Option String)
    (htag : f.tag = Tag.server ∨ f.tag = Tag.route ∨ f.tag = Tag.done)
    (hev : ev = "config" ∨ ev = "config_server") :
    handleEvent env f ev d =
      Except.error ((if f.tag = Tag.done then "unexpected event " else "invalid record ") ++ ev) := by
  rcases hev with rfl | rfl <;> rcases htag with h | h | h <;>
    simp [handleEvent, stateServer, stateRoute, h]

/-- Witness for c1_amended at a concrete route-state machine. -/
theorem c1_amended_witness :
    handleEvent envPlain ⟨Tag.route, Option.none, [], [], [], Option.none, [], [], 0⟩
        "config" (some "x") =
      Except.error ((if (⟨Tag.route, Option.none, [], [], [], Option.none, [], [], 0⟩ : Fsm).tag
          = Tag.done then "unexpected event " else "invalid record ") ++ "config") :=
  c1_amended envPlain ⟨Tag.route, Option.none, [], [], [], Option.none, [], [], 0⟩
    "config" (some "x") (Or.inr (Or.inl rfl)) (Or.inl rfl)

/-! ### Claim C3 -/

/-- Claim C3, counterexample: a stream that declares port 7 twice through
bare PORT directives compiles without any DuplicatePort error and
registers two listeners on port 7; only SERVER directives consult the
ports map. The claim that every duplicated numeric port fails, in
particular for bare PORT directives, is therefore false. -/
theorem c3_counterexample :
    (parseFsm envPlain fsDupPorts "/m" false).map
        (fun f => f.registrations.map Registration.port) =
      Except.ok [7, 7] := by
  rfl

/-- Claim C3, amended: port uniqueness is enforced only between listeners
declared via SERVER directives, and the error is raised while the
offending SERVER directive itself is processed (declaration time, just
after the Server object is built): the event errors when the ports map
already holds the new server's port. A bare PORT directive never
consults the ports map and leaves it unchanged, so PORT listeners are
exempt from the check. -/
theorem c3_amended (env : Env) (f : Fsm) (d : String) (s : Srv) (owner : String)
    (htag : f.tag = Tag.init)
    (hmk : mkServerFromSection env f.cfg d = Except.ok s)
    (hdup : f.ports.lookup s.port = some owner) :
    handleEvent env f "server" (some d) =
      Except.error ("port " ++ toString s.port ++ " already defined for server \x22" ++
        owner ++ "\x22")
    ∧ ∀ d2 p, pyIntOfString d2 = some p →
        handleEvent env f "port" (some d2) =
          Except.ok { f with server := some (mkServerDefault p), tag := Tag.server } := by
  constructor
  · simp [handleEvent, htag, stateInit, stateInitNonConfig, hmk, hdup]
  · intro d2 p hp
    simp [handleEvent, htag, stateInit, stateInitNonConfig, hp]

/-- The machine and constructed server used by the c3_amended witness:
a config section a with port 9, while port 9 is already owned by server a
in the ports map. -/
def fsmDupW : Fsm :=
  ⟨Tag.init, Option.none, [⟨"a.port", Val.int 9, some VTag.vint, Option.none⟩],
    ["a.port"], [(9, "a")], Option.none, [], [], 0⟩

def srvDupW : Srv :=
  ⟨"a", ⟨Val.none, Val.int 10000, Val.int 100, Val.bool true⟩, [], Val.bool true, 9,
    defaultHandler, Option.none, Option.none⟩

/-- Witness for c3_amended: the duplicate SERVER event errors while the
same machine accepts a bare PORT on a brand-new port without consulting
the ports map. -/
theorem c3_amended_witness :
    handleEvent envPlain fsmDupW "server" (some "a") =
      Except.error ("port " ++ toString (srvDupW.port) ++
        " already defined for server \x22" ++ "a" ++ "\x22")
    ∧ handleEvent envPlain fsmDupW "port" (some "8") =
      Except.ok { fsmDupW with server := some (mkServerDefault 8), tag := Tag.server } :=
  ⟨(c3_amended envPlain fsmDupW "a" srvDupW "a" rfl (by rfl) (by rfl)).1,
   (c3_amended envPlain fsmDupW "a" srvDupW "a" rfl (by rfl) (by rfl)).2 "8" 8 (by rfl)⟩

/-! ### Claim C4 -/

/-- Claim C4, counterexample: with the override file present, the stream
CONFIG a, SETUP s.f, CONFIG b, SETUP s.f loads the override file twice
(once at each exit from the Config state), refuting the claim that the
override file is never applied a second time during one parse. -/
theorem c4_counterexample :
    (parseFsm envOverride fsTwoBlocks "/m" false).map Fsm.overrideLoads =
      Except.ok 2 := by
  rfl

/-- Claim C4, amended: the override file is applied exactly on transitions
that leave the Config state: a successfully handled event increments the
override-load count by one precisely when the machine was in the Config
state, the event is neither config nor config_server, and the override
file exists; every other transition leaves the count unchanged. Hence it
is applied exactly once for streams whose config directives form one
contiguous block before all other directives, but once per block exit in
general. -/
theorem c4_amended (env : Env) (f : Fsm) (ev : String) (d : Option String) (f2 : Fsm)
    (h : handleEvent env f ev d = Except.ok f2) :
    f2.overrideLoads = f.overrideLoads +
      (if f.tag = Tag.config ∧ ¬ (ev = "config" ∨ ev = "config_server") ∧
          env.overrideExists = true then 1 else 0) := by
  cases htag : f.tag
  case init =>
    rw [handleEvent_init htag] at h
    unfold stateInit at h
    split_ifs at h with hev
    · have hs := stateConfigAction_spec h
      simp [htag, hs.1]
    · have hs := stateInitNonConfig_spec h
      simp [htag, hs.1]
  case config =>
    rw [handleEvent_config htag] at h
    unfold stateConfig at h
    split_ifs at h with hev hov
    · have hs := stateConfigAction_spec h
      simp [hev, hs.1]
    · have hs := stateInitNonConfig_spec h
      simp only [] at hs
      simp [htag, hev, hov, hs.1]
    · have hs := stateInitNonConfig_spec h
      simp only [] at hs
      simp [htag, hev, hov, hs.1]
  case server =>
    rw [handleEvent_server htag] at h
    have hs := stateServer_spec h
    simp [htag, hs.1]
  case route =>
    rw [handleEvent_route htag] at h
    have hs := stateRoute_spec h
    simp [htag, hs.1]
  case done =>
    rw [handleEvent_done htag] at h
    exact Except.noConfusion h

/-- Witness for c4_amended: one teardown event leaving the Config state
with the override file present bumps the counter from 0 to 1. -/
theorem c4_amended_witness :
    (⟨Tag.init, some "t.f", [], [], [], Option.none, [], [], 1⟩ : Fsm).overrideLoads =
      (⟨Tag.config, Option.none, [], [], [], Option.none, [], [], 0⟩ : Fsm).overrideLoads +
      (if (⟨Tag.config, Option.none, [], [], [], Option.none, [], [], 0⟩ : Fsm).tag = Tag.config ∧
          ¬ ("teardown" = "config" ∨ "teardown" = "config_server") ∧
          envOverride.overrideExists = true then 1 else 0) :=
  c4_amended envOverride ⟨Tag.config, Option.none, [], [], [], Option.none, [], [], 0⟩
    "teardown" (some "t.f") ⟨Tag.init, some "t.f", [], [], [], Option.none, [], [], 1⟩
    (by rfl)

/-! ### Claim C5 -/

/-- The five keys CONFIG_SERVER name port registers, with their documented
defaults and validators, in registration order. -/
def serverKeys (name : String) (p : Int) : List CfgKey :=
  [⟨name ++ ".port", Val.int p, some VTag.vint, Option.none⟩,
   ⟨name ++ ".is_active", Val.bool true, some VTag.vbool, Option.none⟩,
   ⟨name ++ ".ssl.is_active", Val.bool false, some VTag.vbool, Option.none⟩,
   ⟨name ++ ".ssl.keyfile", Val.none, some VTag.vfile, Option.none⟩,
   ⟨name ++ ".ssl.certfile", Val.none, some VTag.vfile, Option.none⟩]

/-- Claim C5: a well-formed CONFIG_SERVER name port line (two tokens, the
second numeric) registers exactly the five documented keys, in order —
name.port (int validator, default the given port), name.is_active (bool,
default true), name.ssl.is_active (bool, default false), name.ssl.keyfile
(file) and name.ssl.certfile (file) — and returns all five dotted names
for bookkeeping. Stated for a schema not already holding those names, so
the registrations are pure appends. -/
theorem c5_config_server_keys (cfg : Cfg) (name port line : String) (p : Int)
    (hsplit : pySplitWs line = [name, port])
    (hp : pyIntOfString port = some p)
    (hfresh : ∀ k ∈ cfg, ∀ nk ∈ serverKeys name p, k.name ≠ nk.name) :
    configServer cfg line =
      Except.ok (cfg ++ serverKeys name p, (serverKeys name p).map CfgKey.name) := by
  have mem1 : (⟨name ++ ".port", Val.int p, some VTag.vint, Option.none⟩ : CfgKey)
      ∈ serverKeys name p := by simp [serverKeys]
  have mem2 : (⟨name ++ ".is_active", Val.bool true, some VTag.vbool, Option.none⟩ : CfgKey)
      ∈ serverKeys name p := by simp [serverKeys]
  have mem3 : (⟨name ++ ".ssl.is_active", Val.bool false, some VTag.vbool, Option.none⟩ : CfgKey)
      ∈ serverKeys name p := by simp [serverKeys]
  have mem4 : (⟨name ++ ".ssl.keyfile", Val.none, some VTag.vfile, Option.none⟩ : CfgKey)
      ∈ serverKeys name p := by simp [serverKeys]
  have mem5 : (⟨name ++ ".ssl.certfile", Val.none, some VTag.vfile, Option.none⟩ : CfgKey)
      ∈ serverKeys name p := by simp [serverKeys]
  have ne12 : name ++ ".port" ≠ name ++ ".is_active" := str_append_ne name (by decide)
  have ne13 : name ++ ".port" ≠ name ++ ".ssl.is_active" := str_append_ne name (by decide)
  have ne14 : name ++ ".port" ≠ name ++ ".ssl.keyfile" := str_append_ne name (by decide)
  have ne15 : name ++ ".port" ≠ name ++ ".ssl.certfile" := str_append_ne name (by decide)
  have ne23 : name ++ ".is_active" ≠ name ++ ".ssl.is_active" := str_append_ne name (by decide)
  have ne24 : name ++ ".is_active" ≠ name ++ ".ssl.keyfile" := str_append_ne name (by decide)
  have ne25 : name ++ ".is_active" ≠ name ++ ".ssl.certfile" := str_append_ne name (by decide)
  have ne34 : name ++ ".ssl.is_active" ≠ name ++ ".ssl.keyfile" := str_append_ne name (by decide)
  have ne35 : name ++ ".ssl.is_active" ≠ name ++ ".ssl.certfile" := str_append_ne name (by decide)
  have ne45 : name ++ ".ssl.keyfile" ≠ name ++ ".ssl.certfile" := str_append_ne name (by decide)
  have e1 : cfgDefine cfg ⟨name ++ ".port", Val.int p, some VTag.vint, Option.none⟩ =
      cfg ++ [⟨name ++ ".port", Val.int p, some VTag.vint, Option.none⟩] :=
    cfgDefine_append (fun x hx => hfresh x hx _ mem1)
  have e2 : cfgDefine (cfg ++ [⟨name ++ ".port", Val.int p, some VTag.vint, Option.none⟩])
      ⟨name ++ ".is_active", Val.bool true, some VTag.vbool, Option.none⟩ =
      cfg ++ [⟨name ++ ".port", Val.int p, some VTag.vint, Option.none⟩,
              ⟨name ++ ".is_active", Val.bool true, some VTag.vbool, Option.none⟩] := by
    rw [cfgDefine_append]
    · simp
    · intro x hx
      rcases List.mem_append.mp hx with hx | hx
      · exact hfresh x hx _ mem2
      · simp at hx
        subst hx
        exact ne12
  have e3 : cfgDefine (cfg ++ [⟨name ++ ".port", Val.int p, some VTag.vint, Option.none⟩,
              ⟨name ++ ".is_active", Val.bool true, some VTag.vbool, Option.none⟩])
      ⟨name ++ ".ssl.is_active", Val.bool false, some VTag.vbool, Option.none⟩ =
      cfg ++ [⟨name ++ ".port", Val.int p, some VTag.vint, Option.none⟩,
              ⟨name ++ ".is_active", Val.bool true, some VTag.vbool, Option.none⟩,
              ⟨name ++ ".ssl.is_active", Val.bool false, some VTag.vbool, Option.none⟩] := by
    rw [cfgDefine_append]
    · simp
    · intro x hx
      rcases List.mem_append.mp hx with hx | hx
      · exact hfresh x hx _ mem3
      · simp at hx
        rcases hx with hx | hx <;> subst hx
        · exact ne13
        · exact ne23
  have e4 : cfgDefine (cfg ++ [⟨name ++ ".port", Val.int p, some VTag.vint, Option.none⟩,
              ⟨name ++ ".is_active", Val.bool true, some VTag.vbool, Option.none⟩,
              ⟨name ++ ".ssl.is_active", Val.bool false, some VTag.vbool, Option.none⟩])
      ⟨name ++ ".ssl.keyfile", Val.none, some VTag.vfile, Option.none⟩ =
      cfg ++ [⟨name ++ ".port", Val.int p, some VTag.vint, Option.none⟩,
              ⟨name ++ ".is_active", Val.bool true, some VTag.vbool, Option.none⟩,
              ⟨name ++ ".ssl.is_active", Val.bool false, some VTag.vbool, Option.none⟩,
              ⟨name ++ ".ssl.keyfile", Val.none, some VTag.vfile, Option.none⟩] := by
    rw [cfgDefine_append]
    · simp
    · intro x hx
      rcases List.mem_append.mp hx with hx | hx
      · exact hfresh x hx _ mem4
      · simp at hx
        rcases hx with hx | hx | hx <;> subst hx
        · exact ne14
        · exact ne24
        · exact ne34
  have e5 : cfgDefine (cfg ++ [⟨name ++ ".port", Val.int p, some VTag.vint, Option.none⟩,
              ⟨name ++ ".is_active", Val.bool true, some VTag.vbool, Option.none⟩,
              ⟨name ++ ".ssl.is_active", Val.bool false, some VTag.vbool, Option.none⟩,
              ⟨name ++ ".ssl.keyfile", Val.none, some VTag.vfile, Option.none⟩])
      ⟨name ++ ".ssl.certfile", Val.none, some VTag.vfile, Option.none⟩ =
      cfg ++ serverKeys name p := by
    rw [cfgDefine_append]
    · simp [serverKeys]
    · intro x hx
      rcases List.mem_append.mp hx with hx | hx
      · exact hfresh x hx _ mem5
      · simp at hx
        rcases hx with hx | hx | hx | hx <;> subst hx
        · exact ne15
        · exact ne25
        · exact ne35
        · exact ne45
  simp only [configServer, hsplit, hp, e1, e2, e3, e4, e5]
  simp [serverKeys]

/-- Witness for c5_config_server_keys on the docstring's own example
CONFIG_SERVER private 10000 over an empty schema. -/
theorem c5_config_server_keys_witness :
    configServer [] "private 10000" =
      Except.ok ([] ++ serverKeys "private" 10000,
        (serverKeys "private" 10000).map CfgKey.name) :=
  c5_config_server_keys [] "private" "10000" "private 10000" 10000
    (by rfl) (by rfl) (by intro k hk; simp at hk)

/-! ### Claim C9 -/

/-- Claim C9: a SETUP directive in the initial state resolves the path —
taken from the MICRO_SETUP environment variable when set, else from the
directive value — and invokes the setup function immediately and
synchronously during this very dispatch, passing the live config
namespace; the resulting machine differs from the old one only by the
recorded invocation, so the call happens before any further directive is
processed. -/
theorem c9_setup_invocation (env : Env) (f : Fsm) (d : String) (fn : String)
    (htag : f.tag = Tag.init)
    (hres : env.resolve (env.microSetup.getD d) = some fn) :
    handleEvent env f "setup" (some d) =
      Except.ok { f with setupCalls := f.setupCalls ++ [(fn, f.cfg)] } := by
  cases hms : env.microSetup with
  | none =>
    rw [hms] at hres
    simp only [Option.getD] at hres
    simp [handleEvent, htag, stateInit, stateInitNonConfig, hms, hres]
  | some q =>
    rw [hms] at hres
    simp only [Option.getD] at hres
    simp [handleEvent, htag, stateInit, stateInitNonConfig, hms, hres]

/-- Witness for c9_setup_invocation: MICRO_SETUP unset, directive value
s.f, at the fresh machine. -/
theorem c9_setup_invocation_witness :
    handleEvent envPlain fsmInit "setup" (some "s.f") =
      Except.ok { fsmInit with setupCalls := fsmInit.setupCalls ++ [("s.f", fsmInit.cfg)] } :=
  c9_setup_invocation envPlain fsmInit "s.f" "s.f" rfl (by rfl)

/-! ### Claim C6 -/

/-- Claim C6, counterexample: a stream holding the single-token line
teardown makes parse fail with the tuple-unpacking ValueError; the lexer
does not produce an event with an empty value. -/
theorem c6_counterexample :
    parseFsm envPlain fsBareWord "/m" false =
      Except.error "ValueError: need more than 1 value to unpack" := by
  rfl

/-- Claim C6, amended: after comment stripping and trimming, a surviving
line is split at the first space character into a lowercased directive
name and the raw remainder, which become the dispatched event; a line
with no space at all — a single token — aborts parse with the
tuple-unpacking ValueError instead of yielding an empty value. -/
theorem c6_amended (env : Env) (f : Fsm) (fname : String) (num : Nat) (l : String)
    (rest : List (String × Nat × String)) (last : Option (String × Nat))
    (hne : pyStrip (cutAtChar '#' l) ≠ "") :
    parseLoop env false f ((fname, num, l) :: rest) last =
      match splitOnce ' ' (pyStrip (cutAtChar '#' l)) with
      | Option.none => Except.error "ValueError: need more than 1 value to unpack"
      | some (n0, v) =>
        match handleAt env f (pyLower n0) (some v) fname num with
        | Except.error e => Except.error e
        | Except.ok f1 => parseLoop env false f1 rest (some (fname, num)) := by
  rw [parseLoop]
  simp only [hne, if_false]
  cases hsp : splitOnce ' ' (pyStrip (cutAtChar '#' l)) with
  | none => simp
  | some nv => simp

/-- Witness for c6_amended at the line PORT 80. -/
theorem c6_amended_witness :
    parseLoop envPlain false fsmInit [("/m", 1, "PORT 80")] Option.none =
      match splitOnce ' ' (pyStrip (cutAtChar '#' "PORT 80")) with
      | Option.none => Except.error "ValueError: need more than 1 value to unpack"
      | some (n0, v) =>
        match handleAt envPlain fsmInit (pyLower n0) (some v) "/m" 1 with
        | Except.error e => Except.error e
        | Except.ok f1 => parseLoop envPlain false f1 [] (some ("/m", 1)) :=
  c6_amended envPlain fsmInit "/m" 1 "PORT 80" [] Option.none (by decide)

/-! ### Loader lemmas shared by claims C2 and C7 -/

lemma loadAux_cyc (env : Env) (fs : FileSys) (fuel : Nat) (fname : String)
    (files : List String) (lines : List (String × Nat × String))
    (h : files.contains fname = true) :
    loadAux env fs fuel fname files lines = Except.error (cyclicMsg fname) := by
  cases fuel <;> simp only [loadAux] <;> rw [if_pos h]

lemma loadAux_step (env : Env) (fs : FileSys) (fuel : Nat) (fname : String)
    (files : List String) (lines : List (String × Nat × String)) (ls : List String)
    (hni : files.contains fname = false) (hopen : fsOpen fs fname = some ls) :
    loadAux env fs (fuel + 1) fname files lines =
      loadLinesH (fun r fl ln => loadAux env fs fuel r fl ln) env
        (pyDirname fname) fname 1 ls (files ++ [fname]) lines := by
  simp only [loadAux]
  rw [if_neg (fun hc => Bool.noConfusion (hni ▸ hc)), hopen]

lemma loadLinesH_nonimport
    (imp : String → List String → List (String × Nat × String) →
      Except String (List String × List (String × Nat × String)))
    (env : Env) (dirPath fname : String) (pa : List String) :
    ∀ (rest ls : List String) (n : Nat) (files : List String)
      (lines : List (String × Nat × String)),
    ls = pa ++ rest →
    (∀ l ∈ pa, isImportLine l = false) →
    ∃ lines1, loadLinesH imp env dirPath fname n ls files lines =
      loadLinesH imp env dirPath fname (n + pa.length) rest files lines1 := by
  induction pa with
  | nil =>
    intro rest ls n files lines hls _
    subst hls
    exact ⟨lines, by simp⟩
  | cons l pa ih =>
    intro rest ls n files lines hls hni
    subst hls
    have hl : isImportLine l = false := hni l (by simp)
    obtain ⟨lines1, h1⟩ :=
      ih rest (pa ++ rest) (n + 1) files (lines ++ [(fname, n, l)]) rfl
        (fun x hx => hni x (by simp [hx]))
    refine ⟨lines1, ?_⟩
    rw [List.cons_append, loadLinesH, if_neg (by simp [hl]), h1]
    have harith : n + 1 + pa.length = n + (l :: pa).length := by
      simp [List.length_cons]
      omega
    rw [harith]

lemma loadAux_flat (env : Env) (fs : FileSys) (fuel : Nat) (b : String)
    (lb : List String) (files : List String) (lines : List (String × Nat × String))
    (hopen : fsOpen fs b = some lb) (hni : ∀ l ∈ lb, isImportLine l = false)
    (hmem : files.contains b = false) :
    ∃ lines1, loadAux env fs (fuel + 1) b files lines =
      Except.ok (files ++ [b], lines1) := by
  obtain ⟨lines1, hA⟩ :=
    loadLinesH_nonimport (fun r fl ln => loadAux env fs fuel r fl ln) env
      (pyDirname b) b lb [] lb 1 (files ++ [b]) lines (by simp) hni
  refine ⟨lines1, ?_⟩
  rw [loadAux_step env fs fuel b files lines lb hmem hopen, hA]
  rw [loadLinesH]

/-! ### Claim C7 -/

/-- Claim C7: a two-file import cycle fails with the recursive-import
error naming the re-encountered file, and no line stream is produced.
Stated for any file system in which file a's first import line (after any
non-import lines) resolves to b, and b's first import line resolves back
to a. -/
theorem c7_cyclic_import (env : Env) (fs : FileSys) (fuel : Nat) (a b : String)
    (la lb pa pb ra rb : List String) (ia ib : String)
    (hfa : fsOpen fs a = some la) (hfb : fsOpen fs b = some lb)
    (hla : la = pa ++ ia :: ra) (hlb : lb = pb ++ ib :: rb)
    (hpa : ∀ l ∈ pa, isImportLine l = false) (hpb : ∀ l ∈ pb, isImportLine l = false)
    (hia : isImportLine ia = true) (hib : isImportLine ib = true)
    (hresa : resolveTarget env.moduleDir (pyDirname a) (importTarget ia) = Except.ok b)
    (hresb : resolveTarget env.moduleDir (pyDirname b) (importTarget ib) = Except.ok a)
    (hab : a ≠ b) :
    loadAux env fs (fuel + 2) a [] [] = Except.error (cyclicMsg a) := by
  have hcb : ([a].contains b) = false := by
    simp [List.contains_cons, beq_iff_eq]
    exact fun hc => hab hc.symm
  have hcab : (([a] ++ [b]).contains a) = true := by simp
  have hb : ∀ lines1, loadAux env fs (fuel + 1) b [a] lines1 =
      Except.error (cyclicMsg a) := by
    intro lines1
    rw [loadAux_step env fs fuel b [a] lines1 lb hcb hfb]
    obtain ⟨lines2, hA2⟩ :=
      loadLinesH_nonimport (fun r fl ln => loadAux env fs fuel r fl ln) env
        (pyDirname b) b pb (ib :: rb) lb 1 ([a] ++ [b]) lines1 hlb hpb
    rw [hA2, loadLinesH, if_pos (by simp [hib]), hresb]
    simp only []
    rw [loadAux_cyc env fs fuel a ([a] ++ [b]) lines2 hcab]
  rw [show fuel + 2 = (fuel + 1) + 1 from rfl,
      loadAux_step env fs (fuel + 1) a [] [] la rfl hfa]
  simp only [List.nil_append]
  obtain ⟨lines1, hA⟩ :=
    loadLinesH_nonimport (fun r fl ln => loadAux env fs (fuel + 1) r fl ln) env
      (pyDirname a) a pa (ia :: ra) la 1 [a] [] hla hpa
  rw [hA, loadLinesH, if_pos (by simp [hia]), hresa]
  simp only []
  rw [hb lines1]

/-- Witness for c7_cyclic_import on the concrete two-file cycle, at the
same fuel that parse would supply (file-system size plus one). -/
theorem c7_cyclic_import_witness :
    loadAux envPlain fsCycle 3 "/a" [] [] = Except.error (cyclicMsg "/a") :=
  c7_cyclic_import envPlain fsCycle 1 "/a" "/b" ["import /b"] ["import /a"]
    [] [] [] [] "import /b" "import /a" (by rfl) (by rfl) (by rfl) (by rfl)
    (by intro l hl; simp at hl) (by intro l hl; simp at hl)
    (by rfl) (by rfl) (by rfl) (by rfl) (by decide)

/-! ### Claim C2 -/

/-- Claim C2, counterexample: A imports B twice from unrelated branches,
no cycle exists, yet loading fails with the recursive-import error naming
B instead of succeeding and duplicating B's lines. -/
theorem c2_counterexample :
    load envPlain fsDoubleImport "/a" =
      Except.error (cyclicMsg "/b") := by
  rfl

/-- Claim C2, amended: the loader records every file ever expanded, not
just the stack of files currently being expanded, so the second import of
an already-expanded file fails with the recursive-import error naming
that file — even when the two imports sit in unrelated branches of an
acyclic graph; nothing is re-expanded or deduplicated. Stated for any
file a importing an import-free file b twice. -/
theorem c2_amended (env : Env) (fs : FileSys) (fuel : Nat) (a b : String)
    (la lb pa qa ra : List String) (ia ja : String)
    (hfa : fsOpen fs a = some la) (hfb : fsOpen fs b = some lb)
    (hla : la = pa ++ ia :: (qa ++ ja :: ra))
    (hpa : ∀ l ∈ pa, isImportLine l = false) (hqa : ∀ l ∈ qa, isImportLine l = false)
    (hlb : ∀ l ∈ lb, isImportLine l = false)
    (hia : isImportLine ia = true) (hja : isImportLine ja = true)
    (hresi : resolveTarget env.moduleDir (pyDirname a) (importTarget ia) = Except.ok b)
    (hresj : resolveTarget env.moduleDir (pyDirname a) (importTarget ja) = Except.ok b)
    (hab : a ≠ b) :
    loadAux env fs (fuel + 2) a [] [] = Except.error (cyclicMsg b) := by
  have hcb : ([a].contains b) = false := by
    simp [List.contains_cons, beq_iff_eq]
    exact fun hc => hab hc.symm
  have hcbb : (([a] ++ [b]).contains b) = true := by simp
  rw [show fuel + 2 = (fuel + 1) + 1 from rfl,
      loadAux_step env fs (fuel + 1) a [] [] la rfl hfa]
  simp only [List.nil_append]
  obtain ⟨lines1, hA⟩ :=
    loadLinesH_nonimport (fun r fl ln => loadAux env fs (fuel + 1) r fl ln) env
      (pyDirname a) a pa (ia :: (qa ++ ja :: ra)) la 1 [a] [] hla hpa
  rw [hA, loadLinesH, if_pos (by simp [hia]), hresi]
  simp only []
  obtain ⟨lines2, hB⟩ := loadAux_flat env fs fuel b lb [a] lines1 hfb hlb hcb
  rw [hB]
  simp only []
  obtain ⟨lines3, hA2⟩ :=
    loadLinesH_nonimport (fun r fl ln => loadAux env fs (fuel + 1) r fl ln) env
      (pyDirname a) a qa (ja :: ra) (qa ++ ja :: ra)
      (1 + pa.length + 1) ([a] ++ [b]) lines2 rfl hqa
  rw [hA2, loadLinesH, if_pos (by simp [hja]), hresj]
  simp only []
  rw [loadAux_cyc env fs (fuel + 1) b ([a] ++ [b]) lines3 hcbb]

/-- Witness for c2_amended on the concrete doubled import, at the fuel
parse would supply. -/
theorem c2_amended_witness :
    loadAux envPlain fsDoubleImport 3 "/a" [] [] = Except.error (cyclicMsg "/b") :=
  c2_amended envPlain fsDoubleImport 1 "/a" "/b"
    ["import /b", "import /b"] ["port 1"] [] [] [] "import /b" "import /b"
    (by rfl) (by rfl) (by rfl)
    (by intro l hl; simp at hl) (by intro l hl; simp at hl)
    (by intro l hl; simp at hl; subst hl; rfl)
    (by rfl) (by rfl) (by rfl) (by rfl) (by decide)

/-! ### Claim C10 -/

lemma handleEvent_nonconfig_inv (env : Env) (f : Fsm) (ev : String) (d : Option String)
    (f2 : Fsm) (hev1 : ev ≠ "config") (hev2 : ev ≠ "config_server")
    (h : handleEvent env f ev d = Except.ok f2)
    (htag : f.tag ≠ Tag.config) (hl : f.overrideLoads = 0) :
    f2.tag ≠ Tag.config ∧ f2.overrideLoads = 0 := by
  cases htg : f.tag
  case init =>
    rw [handleEvent_init htg] at h
    unfold stateInit at h
    rw [if_neg (by simp [hev1, hev2])] at h
    have hs := stateInitNonConfig_spec h
    refine ⟨?_, by rw [hs.1, hl]⟩
    rcases hs.2 with he | he | he <;> simp [he, htg]
  case config => exact absurd htg htag
  case server =>
    rw [handleEvent_server htg] at h
    have hs := stateServer_spec h
    refine ⟨?_, by rw [hs.1, hl]⟩
    rcases hs.2 with he | he <;> simp [he]
  case route =>
    rw [handleEvent_route htg] at h
    have hs := stateRoute_spec h
    refine ⟨?_, by rw [hs.1, hl]⟩
    rcases hs.2 with he | he | he <;> simp [he, htg]
  case done =>
    rw [handleEvent_done htg] at h
    exact Except.noConfusion h

lemma parseLoop_inv (env : Env) (lines : List (String × Nat × String)) :
    ∀ (f : Fsm) (last : Option (String × Nat)) (res : Fsm × Option (String × Nat)),
    parseLoop env false f lines last = Except.ok res →
    (∀ t ∈ lines, lexedName t.2.2 ≠ some "config" ∧
      lexedName t.2.2 ≠ some "config_server") →
    f.tag ≠ Tag.config → f.overrideLoads = 0 →
    res.1.tag ≠ Tag.config ∧ res.1.overrideLoads = 0 := by
  induction lines with
  | nil =>
    intro f last res h _ htag hl
    rw [parseLoop] at h
    obtain rfl := Except.ok.inj h
    exact ⟨htag, hl⟩
  | cons t rest ih =>
    obtain ⟨fname, lnum, l⟩ := t
    intro f last res h hnames htag hl
    rw [parseLoop] at h
    simp only [] at h
    by_cases hblank : pyStrip (cutAtChar '#' l) = ""
    · rw [if_pos hblank] at h
      exact ih f (some (fname, lnum)) res h (fun t ht => hnames t (by simp [ht])) htag hl
    · rw [if_neg hblank] at h
      cases hsp : splitOnce ' ' (pyStrip (cutAtChar '#' l)) with
      | none =>
        rw [hsp] at h
        exact Except.noConfusion h
      | some nv =>
        obtain ⟨n0, v⟩ := nv
        rw [hsp] at h
        simp only [] at h
        rw [if_neg (by simp)] at h
        cases hha : handleAt env f (pyLower n0) (some v) fname lnum with
        | error e =>
          rw [hha] at h
          simp only [] at h
          exact Except.noConfusion h
        | ok f1 =>
          rw [hha] at h
          simp only [] at h
          have hname := hnames (fname, lnum, l) (by simp)
          have hlex : lexedName l = some (pyLower n0) := by
            unfold lexedName
            simp only []
            rw [hsp]
            rfl
          have hne1 : pyLower n0 ≠ "config" := by
            intro hc
            exact hname.1 (by rw [hlex, hc])
          have hne2 : pyLower n0 ≠ "config_server" := by
            intro hc
            exact hname.2 (by rw [hlex, hc])
          have hinv := handleEvent_nonconfig_inv env f (pyLower n0) (some v) f1 hne1 hne2
            (handleAt_ok.mp hha) htag hl
          exact ih f1 (some (fname, lnum)) res h (fun t ht => hnames t (by simp [ht]))
            hinv.1 hinv.2

/-- Claim C10: a directive stream containing no CONFIG or CONFIG_SERVER
event never enters the Config state, whose exit transition is the only
place the override file is loaded, so parse never reads the override
file: the finished machine records zero override loads, whatever the
override file's existence or contents. -/
theorem c10_no_config_no_override (env : Env) (fs : FileSys) (src : String) (f : Fsm)
    (files : List String) (lines : List (String × Nat × String))
    (hload : load env fs src = Except.ok (files, lines))
    (hnames : ∀ t ∈ lines, lexedName t.2.2 ≠ some "config" ∧
      lexedName t.2.2 ≠ some "config_server")
    (hok : parseFsm env fs src false = Except.ok f) :
    f.overrideLoads = 0 := by
  unfold parseFsm at hok
  rw [hload] at hok
  try simp only [] at hok
  cases hpl : parseLoop env false fsmInit lines Option.none with
  | error e =>
    rw [hpl] at hok
    try simp only [] at hok
    exact Except.noConfusion hok
  | ok res =>
    rw [hpl] at hok
    try simp only [] at hok
    have hinv := parseLoop_inv env lines fsmInit Option.none res hpl hnames
      (by simp [fsmInit]) rfl
    obtain ⟨f0, olast⟩ := res
    cases olast with
    | none =>
      try simp only [] at hok
      exact Except.noConfusion hok
    | some fl =>
      obtain ⟨fname, lnum⟩ := fl
      try simp only [] at hok
      have hfin := handleEvent_nonconfig_inv env f0 "done" Option.none f
        (by decide) (by decide) (handleAt_ok.mp hok) hinv.1 hinv.2
      exact hfin.2

/-- Witness for c10_no_config_no_override: a config-free one-line stream
with the override file present still ends with zero override loads. -/
theorem c10_no_config_no_override_witness :
    (⟨Tag.done, some "t.f", [], [], [], Option.none, [], [], 0⟩ : Fsm).overrideLoads = 0 :=
  c10_no_config_no_override envOverride fsTeardownOnly "/m"
    ⟨Tag.done, some "t.f", [], [], [], Option.none, [], [], 0⟩
    ["/m"] [("/m", 1, "teardown t.f")] (by rfl)
    (by intro t ht; simp at ht; subst ht; constructor <;> decide)
    (by rfl)

/-! ### Claim C8 -/

/-- The FSM events corresponding to a list of method directives. -/
def methodEvents (ms : List (String × String)) : List (String × Option String) :=
  ms.map (fun md => (md.1, some md.2))

/-- The method table accumulated by attaching the given method directives
to a route whose table starts as t: a left fold of dict insertions of the
resolved handlers. -/
def methodTable (resolve : String → Option String) (ms : List (String × String))
    (t : List (String × String)) : List (String × String) :=
  ms.foldl (fun acc md => dictInsert acc md.1 ((resolve md.2).getD "")) t

lemma runEvents_methods (env : Env) (ms : List (String × String)) :
    ∀ (f : Fsm) (s : Srv) (r : RouteT) (rest : List (String × Option String)),
    f.tag = Tag.route → f.server = some s → s.route = some r →
    (∀ md ∈ ms, (md.1 = "get" ∨ md.1 = "post" ∨ md.1 = "put" ∨ md.1 = "delete") ∧
      (env.resolve md.2).isSome = true) →
    runEvents env f (methodEvents ms ++ rest) =
      runEvents env { f with server := some { s with route := some { r with
        method := methodTable env.resolve ms r.method } } } rest := by
  induction ms with
  | nil =>
    intro f s r rest htag hs hr _
    have hcol : ({ f with server := some { s with route := some { r with
        method := methodTable env.resolve [] r.method } } }) = f := by
      show ({ f with server := some { s with route := some { r with
        method := r.method } } }) = f
      rw [show ({ r with method := r.method } : RouteT) = r from rfl, ← hr,
        show ({ s with route := s.route } : Srv) = s from rfl, ← hs]
    rw [hcol]
    simp [methodEvents]
  | cons md ms ih =>
    intro f s r rest htag hs hr hmd
    obtain ⟨hm, hres⟩ := hmd md (by simp)
    obtain ⟨fn, hfn⟩ := Option.isSome_iff_exists.mp hres
    have hstep : handleEvent env f md.1 (some md.2) =
        Except.ok { f with server := some { s with route := some { r with
          method := dictInsert r.method md.1 fn } } } := by
      rw [handleEvent_route htag]
      unfold stateRoute srvAddMethod routeAdd
      rw [if_pos hm]
      simp only []
      rw [hs]
      simp only []
      rw [hr]
      simp only []
      rw [hfn]
    have happ := ih
      { f with server := some { s with route := some { r with
        method := dictInsert r.method md.1 fn } } }
      { s with route := some { r with method := dictInsert r.method md.1 fn } }
      { r with method := dictInsert r.method md.1 fn } rest htag rfl rfl
      (fun md2 h2 => hmd md2 (by simp [h2]))
    rw [show methodEvents (md :: ms) = (md.1, some md.2) :: methodEvents ms from rfl,
      List.cons_append, runEvents, hstep]
    simp only []
    rw [happ,
      show methodTable env.resolve (md :: ms) r.method
        = methodTable env.resolve ms (dictInsert r.method md.1 ((env.resolve md.2).getD ""))
        from rfl,
      hfn]
    rfl

/-- Claim C8: from a freshly opened active server, two consecutive ROUTE
directives with their attached method directives, closed by done,
finalize into a mapper holding both routes in declaration order, each
carrying exactly the method table folded from its own directives,
independent of the other's, and one registration carrying that mapper. -/
theorem c8_two_routes (env : Env) (f : Fsm) (s : Srv) (p1 p2 : String)
    (ms1 ms2 : List (String × String))
    (htag : f.tag = Tag.server) (hs : f.server = some s)
    (hroute : s.route = Option.none) (hactive : s.is_active.truthy = true)
    (hm1 : ∀ md ∈ ms1, (md.1 = "get" ∨ md.1 = "post" ∨ md.1 = "put" ∨ md.1 = "delete") ∧
      (env.resolve md.2).isSome = true)
    (hm2 : ∀ md ∈ ms2, (md.1 = "get" ∨ md.1 = "post" ∨ md.1 = "put" ∨ md.1 = "delete") ∧
      (env.resolve md.2).isSome = true) :
    runEvents env f (("route", some p1) :: (methodEvents ms1 ++
        ("route", some p2) :: (methodEvents ms2 ++ [("done", Option.none)]))) =
      Except.ok { f with
        server := some { s with
          mapper := s.mapper ++ [(p1, methodTable env.resolve ms1 []),
                                 (p2, methodTable env.resolve ms2 [])],
          route := some ⟨p2, methodTable env.resolve ms2 []⟩ },
        registrations := f.registrations ++ [⟨s.port, s.handler,
          s.mapper ++ [(p1, methodTable env.resolve ms1 []),
                       (p2, methodTable env.resolve ms2 [])], s.ssl⟩],
        tag := Tag.done } := by
  have hstep1 : handleEvent env f "route" (some p1) =
      Except.ok { f with
        server := some { s with route := some ⟨p1, []⟩ },
        tag := Tag.route } := by
    rw [handleEvent_server htag]
    unfold stateServer srvAddRoute
    rw [if_pos rfl]
    simp only []
    rw [hs]
    simp only []
    rw [hroute]
  rw [runEvents, hstep1]
  simp only []
  have happ1 := runEvents_methods env ms1
    { f with
      server := some { s with route := some ⟨p1, []⟩ },
      tag := Tag.route }
    { s with route := some ⟨p1, []⟩ } ⟨p1, []⟩
    (("route", some p2) :: (methodEvents ms2 ++ [("done", Option.none)]))
    rfl rfl rfl hm1
  rw [happ1]
  have hstep2 : handleEvent env
      { f with
        server := some { s with
          route := some ⟨p1, methodTable env.resolve ms1 []⟩ },
        tag := Tag.route }
      "route" (some p2) =
      Except.ok { f with
        server := some { s with
          mapper := s.mapper ++ [(p1, methodTable env.resolve ms1 [])],
          route := some ⟨p2, []⟩ },
        tag := Tag.route } := rfl
  rw [runEvents, hstep2]
  simp only []
  have happ2 := runEvents_methods env ms2
    { f with
      server := some { s with
        mapper := s.mapper ++ [(p1, methodTable env.resolve ms1 [])],
        route := some ⟨p2, []⟩ },
      tag := Tag.route }
    { s with
      mapper := s.mapper ++ [(p1, methodTable env.resolve ms1 [])],
      route := some ⟨p2, []⟩ } ⟨p2, []⟩
    [("done", Option.none)] rfl rfl rfl hm2
  rw [happ2]
  have hstepD : handleEvent env
      { f with
        server := some { s with
          mapper := s.mapper ++ [(p1, methodTable env.resolve ms1 [])],
          route := some ⟨p2, methodTable env.resolve ms2 []⟩ },
        tag := Tag.route }
      "done" Option.none =
      Except.ok { f with
        server := some { s with
          mapper := (s.mapper ++ [(p1, methodTable env.resolve ms1 [])]) ++
            [(p2, methodTable env.resolve ms2 [])],
          route := some ⟨p2, methodTable env.resolve ms2 []⟩ },
        registrations := f.registrations ++ [⟨s.port, s.handler,
          (s.mapper ++ [(p1, methodTable env.resolve ms1 [])]) ++
            [(p2, methodTable env.resolve ms2 [])], s.ssl⟩],
        tag := Tag.done } := by
    rw [handleEvent_route rfl]
    unfold stateRoute srvDone
    rw [if_neg (by decide), if_neg (by decide), if_neg (by decide), if_neg (by decide),
      if_pos rfl]
    simp only []
    rw [if_pos hactive]
    rfl
  rw [runEvents, hstepD]
  simp only []
  rw [runEvents]
  simp [List.append_assoc]

/-- Witness for c8_two_routes: a bare PORT server, routes p and q, one
GET on each plus a POST on the second. -/
theorem c8_two_routes_witness :
    runEvents envPlain
      ⟨Tag.server, Option.none, [], [], [], some (mkServerDefault 5), [], [], 0⟩
      (("route", some "/p") :: (methodEvents [("get", "h.a")] ++
        ("route", some "/q") ::
          (methodEvents [("get", "h.b"), ("post", "h.c")] ++ [("done", Option.none)]))) =
      Except.ok { (⟨Tag.server, Option.none, [], [], [], some (mkServerDefault 5), [], [], 0⟩ : Fsm) with
        server := some { mkServerDefault 5 with
          mapper := (mkServerDefault 5).mapper ++
            [("/p", methodTable envPlain.resolve [("get", "h.a")] []),
             ("/q", methodTable envPlain.resolve [("get", "h.b"), ("post", "h.c")] [])],
          route := some ⟨"/q", methodTable envPlain.resolve [("get", "h.b"), ("post", "h.c")] []⟩ },
        registrations := [] ++ [⟨(mkServerDefault 5).port, (mkServerDefault 5).handler,
          (mkServerDefault 5).mapper ++
            [("/p", methodTable envPlain.resolve [("get", "h.a")] []),
             ("/q", methodTable envPlain.resolve [("get", "h.b"), ("post", "h.c")] [])],
          (mkServerDefault 5).ssl⟩],
        tag := Tag.done } :=
  c8_two_routes envPlain
    ⟨Tag.server, Option.none, [], [], [], some (mkServerDefault 5), [], [], 0⟩
    (mkServerDefault 5) "/p" "/q" [("get", "h.a")] [("get", "h.b"), ("post", "h.c")]
    rfl rfl rfl rfl
    (by intro md hmd; simp at hmd; subst hmd; exact ⟨Or.inl rfl, rfl⟩)
    (by intro md hmd; simp at hmd; rcases hmd with h | h <;> subst h
        · exact ⟨Or.inl rfl, rfl⟩
        · exact ⟨Or.inr (Or.inl rfl), rfl⟩)

end Micro
